import Mathlib

/-!
Verification of the VoiceLead backend confidence-scoring and fallback pipeline.

The definitions below are a shallow embedding of the pure core of
`src/services/audio.service.js` (`calculateConfidence` and the
post-transcription part of `processAudioToLead`) and
`src/services/ocr.service.js` (`calculateOCRConfidence` and
`processImageToLead`).  JavaScript numbers are modelled as rationals (ℚ),
JavaScript `null`/`undefined` string values as `Option String`, and the
JavaScript truthiness tests of the source are translated explicitly
(`"" `, `0`, `null` and `undefined` are falsy; arrays, including the empty
array, are truthy).
-/

set_option maxRecDepth 8000

namespace VoiceLead

/-- JS `v || dflt` on an optional string: the default replaces `null`,
`undefined` and the falsy empty string. -/
def jsOrStr (v : Option String) (dflt : String) : String :=
  match v with
  | some s => if s = "" then dflt else s
  | none => dflt

/-- JS `v || dflt` on an optional number: the default replaces `null`,
`undefined` and the falsy `0`. -/
def jsOrQ (v : Option ℚ) (dflt : ℚ) : ℚ :=
  match v with
  | some q => if q = 0 then dflt else q
  | none => dflt

/-- JS `v || dflt` on an optional array: arrays are always truthy, so only
`null`/`undefined` is replaced. -/
def jsOrList {α : Type} (v : Option (List α)) (dflt : List α) : List α :=
  match v with
  | some xs => xs
  | none => dflt

/-- JS truthiness of a string-or-nullish value: `null`, `undefined` and
`""` are falsy. -/
def truthyStr : Option String → Bool
  | some s => s != ""
  | none => false

/-- JS `Array.prototype.join(' | ')`. -/
def joinSep : List String → String
  | [] => ""
  | [x] => x
  | x :: y :: xs => x ++ " | " ++ joinSep (y :: xs)

/-- JS `String.prototype.trim`: strip whitespace from both ends. -/
def jsTrim (s : String) : String :=
  ⟨((s.data.dropWhile Char.isWhitespace).reverse.dropWhile Char.isWhitespace).reverse⟩

/-- JS `Math.max`. -/
def jsMax (a b : ℚ) : ℚ := if a ≤ b then b else a

/-- JS `Math.min`. -/
def jsMin (a b : ℚ) : ℚ := if a ≤ b then a else b

/-- Character class `[^\s@]` of the email regex in both services. -/
def emailChar (c : Char) : Bool := !c.isWhitespace && c != '@'

/-- The email regex `/^[^\s@]+@[^\s@]+\.[^\s@]+$/` of both services:
exactly one `@` (the parts left and right of it admit no `@`), a non-empty
local part, and after the `@` a dot with at least one regex-legal character
on each side. -/
def isValidEmail (s : String) : Bool :=
  let cs := s.data
  let loc := cs.takeWhile (fun c => c != '@')
  match cs.dropWhile (fun c => c != '@') with
  | '@' :: dom =>
    !loc.isEmpty && loc.all emailChar && !dom.isEmpty && dom.all emailChar &&
      ((dom.drop 1).dropLast.contains '.')
  | _ => false

/-- The extractor's best-effort structured guess (`leadData` /
`extractedData` field part): each field is a string or `null`. -/
structure LeadFields where
  name : Option String
  email : Option String
  phone : Option String
  company : Option String
  interest : Option String
deriving DecidableEq

/-- One Whisper segment; the scorer only reads `seg.text`, which may be
missing. -/
structure Segment where
  text : Option String
deriving DecidableEq

/-- The `metadata` argument of `calculateConfidence`: an object whose
members may each be missing (`undefined`).  `words` elements are only
counted, so they are modelled as plain strings. -/
structure Metadata where
  duration : Option ℚ
  language : Option String
  segments : Option (List Segment)
  words : Option (List String)

/-- The per-field test `leadData[field] && leadData[field].trim().length > 0`
of both scorers, on a well-typed (string-or-null) field. -/
def fieldPresent : Option String → Bool
  | some s => s != "" && decide (0 < (jsTrim s).length)
  | none => false

/-- Contribution of one field to the score (`score++` when present). -/
def fieldPoint (v : Option String) : ℚ :=
  if fieldPresent v then 1 else 0

/-- The `fields.forEach` loop of both scorers, unrolled over
`['name','email','phone','company','interest']`. -/
def fieldScore (l : LeadFields) : ℚ :=
  fieldPoint l.name + fieldPoint l.email + fieldPoint l.phone +
    fieldPoint l.company + fieldPoint l.interest

/-- The `+0.5` bonus when `email` is truthy and matches the email regex. -/
def emailBonus (email : Option String) : ℚ :=
  match email with
  | some e => if e != "" && isValidEmail e then 1/2 else 0
  | none => 0

/-- The `-1` penalty when `transcriptionText.length < 20` (voice scorer). -/
def shortTextPenalty (t : String) : ℚ :=
  if t.length < 20 then -1 else 0

/-- One summand of the segment-length average:
`seg.text ? seg.text.length : 0`. -/
def segTextLen (seg : Segment) : ℚ :=
  match seg.text with
  | some t => if t != "" then (t.length : ℚ) else 0
  | none => 0

/-- `metadata.segments.reduce((sum, seg) => sum + (seg.text ? seg.text.length : 0), 0) / metadata.segments.length`. -/
def avgSegLen (segs : List Segment) : ℚ :=
  (segs.foldl (fun sum seg => sum + segTextLen seg) 0) / (segs.length : ℚ)

/-- The `if (metadata.duration && metadata.segments)` block of the voice
scorer: the guard needs a truthy (present, non-zero) duration and a present
segments array; inside, `-0.5` for duration `< 2` and `+0.3` for a mean
segment text length `> 10` over a non-empty segments array. -/
def durationSegmentAdjust (md : Metadata) : ℚ :=
  match md.duration, md.segments with
  | some d, some segs =>
    if d ≠ 0 then
      (if d < 2 then -(1/2 : ℚ) else 0) +
        (if 0 < segs.length then (if 10 < avgSegLen segs then 3/10 else 0) else 0)
    else 0
  | _, _ => 0

/-- The `if (metadata.words && metadata.duration && metadata.duration > 0)`
block of the voice scorer: `+0.2` when `words.length / duration` lies in
`[1.5, 4]`. -/
def paceBonus (md : Metadata) : ℚ :=
  match md.words, md.duration with
  | some ws, some d =>
    if d ≠ 0 ∧ 0 < d then
      (if 3/2 ≤ (ws.length : ℚ) / d ∧ (ws.length : ℚ) / d ≤ 4 then 1/5 else 0)
    else 0
  | _, _ => 0

/-- The raw (pre-normalization) score of the voice scorer: the sequential
`score` updates of `calculateConfidence`, whose guards never depend on the
running score, as a sum. -/
def rawScore (leadData : LeadFields) (transcriptionText : String) (metadata : Metadata) : ℚ :=
  fieldScore leadData + emailBonus leadData.email + shortTextPenalty transcriptionText +
    durationSegmentAdjust metadata + paceBonus metadata

/-- `CONFIDENCE_THRESHOLD = 0.6` (identical in both services). -/
def CONFIDENCE_THRESHOLD : ℚ := 3/5

/-- `calculateConfidence` of `audio.service.js`:
`Math.max(0, Math.min(1, score / (totalFields + 1.5)))` with
`totalFields = 5`. -/
def calculateConfidence (leadData : LeadFields) (transcriptionText : String) (metadata : Metadata) : ℚ :=
  jsMax 0 (jsMin 1 (rawScore leadData transcriptionText metadata / (5 + 3/2)))

/-- The vision extractor's response: candidate fields plus the `ocrText`
free-text dump, each possibly `null`. -/
structure OCRData where
  name : Option String
  email : Option String
  phone : Option String
  company : Option String
  interest : Option String
  ocrText : Option String
deriving DecidableEq

/-- The five candidate fields of an OCR response. -/
def ocrFields (d : OCRData) : LeadFields :=
  ⟨d.name, d.email, d.phone, d.company, d.interest⟩

/-- The `-1` penalty of the image scorer:
`extractedData.ocrText && extractedData.ocrText.length < 10`. -/
def ocrTextPenalty (t : Option String) : ℚ :=
  match t with
  | some s => if s != "" && decide (s.length < 10) then -1 else 0
  | none => 0

/-- The raw (pre-normalization) score of `calculateOCRConfidence`. -/
def rawOCRScore (d : OCRData) : ℚ :=
  fieldScore (ocrFields d) + emailBonus d.email + ocrTextPenalty d.ocrText

/-- `calculateOCRConfidence` of `ocr.service.js`:
`Math.max(0, Math.min(1, score / (totalFields + 0.5)))` with
`totalFields = 5`. -/
def calculateOCRConfidence (d : OCRData) : ℚ :=
  jsMax 0 (jsMin 1 (rawOCRScore d / (5 + 1/2)))

/-- JS `Number.prototype.toFixed(2)` on a finite rational (round to the
nearest hundredth, ties up), used for the `Duration:` remarks line. -/
def toFixed2 (q : ℚ) : String :=
  let n : Int := round (q * 100)
  let sign := if n < 0 then "-" else ""
  let m := n.natAbs
  let fp := m % 100
  sign ++ toString (m / 100) ++ "." ++ (if fp < 10 then "0" else "") ++ toString fp

/-- The Whisper `verbose_json` response consumed by `processAudioToLead`:
every member may be absent. -/
structure TranscriptionResult where
  text : Option String
  duration : Option ℚ
  language : Option String
  segments : Option (List Segment)
  words : Option (List String)

/-- The record returned by `processAudioToLead`. -/
structure AudioLead where
  name : Option String
  email : Option String
  phone : Option String
  company : Option String
  interest : Option String
  transcript : String
  source : String
  type : String
  confidence : ℚ
  remarks : Option String
  rawAudioUrl : String

/-- One `if (leadData.f) partialData.push(...)` line of the fallback
blocks: a truthy (non-null, non-empty) field contributes
`"<Label> (low confidence): <value>"`. -/
def fieldLine (lbl : String) (v : Option String) : List String :=
  match v with
  | some s => if s = "" then [] else [lbl ++ " (low confidence): " ++ s]
  | none => []

/-- The `partialData` pushes of the voice fallback block
(`audio.service.js` lines 340–348), in source order. -/
def audioPartialData (transcriptionText lang : String) (dur : ℚ) (leadData : LeadFields) : List String :=
  (if transcriptionText = "" then [] else ["Transcript: " ++ transcriptionText]) ++
  (if lang = "" then [] else ["Language: " ++ lang]) ++
  (if dur = 0 then [] else ["Duration: " ++ toFixed2 dur ++ "s"]) ++
  fieldLine "Name" leadData.name ++
  fieldLine "Email" leadData.email ++
  fieldLine "Phone" leadData.phone ++
  fieldLine "Company" leadData.company ++
  fieldLine "Interest" leadData.interest

/-- The pure post-extraction part of `processAudioToLead`: the
`transcription.x || dflt` metadata defaults, the confidence computation,
the fallback remarks block, and the assembled record. -/
def processAudioToLead (transcription : TranscriptionResult) (leadData : LeadFields)
    (audioUrl rawAudioUrl : String) : AudioLead :=
  let transcriptionText := jsOrStr transcription.text ""
  let dur := jsOrQ transcription.duration 0
  let lang := jsOrStr transcription.language "unknown"
  let metadata : Metadata :=
    ⟨some dur, some lang, some (jsOrList transcription.segments []),
      some (jsOrList transcription.words [])⟩
  let confidence := calculateConfidence leadData transcriptionText metadata
  let remarks : Option String :=
    if confidence < CONFIDENCE_THRESHOLD then
      some (joinSep (audioPartialData transcriptionText lang dur leadData))
    else none
  { name := leadData.name, email := leadData.email, phone := leadData.phone,
    company := leadData.company, interest := leadData.interest,
    transcript := transcriptionText, source := audioUrl, type := "voice",
    confidence := confidence, remarks := remarks, rawAudioUrl := rawAudioUrl }

/-- The record returned by `processImageToLead`. -/
structure ImageLead where
  boothId : Option Int
  name : Option String
  email : Option String
  phone : Option String
  company : Option String
  interest : Option String
  ocrText : Option String
  source : String
  type : String
  confidence : ℚ
  remarks : Option String

/-- The `partialData` pushes of the image fallback block
(`ocr.service.js` lines 143–148), in source order. -/
def imagePartialData (d : OCRData) : List String :=
  (match d.ocrText with
   | some t => if t = "" then [] else ["OCR Text: " ++ t]
   | none => []) ++
  fieldLine "Name" d.name ++
  fieldLine "Email" d.email ++
  fieldLine "Phone" d.phone ++
  fieldLine "Company" d.company ++
  fieldLine "Interest" d.interest

/-- The pure part of `processImageToLead`: confidence, fallback remarks and
the assembled record (`boothId ? Number(boothId) : null` keeps a truthy,
hence non-zero, booth id). -/
def processImageToLead (extractedData : OCRData) (boothId : Option Int) (imageUrl : String) : ImageLead :=
  let confidence := calculateOCRConfidence extractedData
  let remarks : Option String :=
    if confidence < CONFIDENCE_THRESHOLD then some (joinSep (imagePartialData extractedData))
    else none
  { boothId :=
      match boothId with
      | some b => if b = 0 then none else some b
      | none => none,
    name := extractedData.name, email := extractedData.email, phone := extractedData.phone,
    company := extractedData.company, interest := extractedData.interest,
    ocrText := extractedData.ocrText, source := imageUrl, type := "image",
    confidence := confidence, remarks := remarks }

/-- A dynamically-typed JavaScript value, to express inputs of the wrong
shape. -/
inductive JSVal where
  | null
  | undef
  | str (s : String)
  | num (q : ℚ)
  | boolean (b : Bool)
deriving DecidableEq

/-- JS truthiness of a dynamic value. -/
def JSVal.truthy : JSVal → Bool
  | .null => false
  | .undef => false
  | .str s => s != ""
  | .num q => q != 0
  | .boolean b => b

/-- Candidate fields of arbitrary dynamic shape. -/
structure DynFields where
  name : JSVal
  email : JSVal
  phone : JSVal
  company : JSVal
  interest : JSVal

/-- One iteration of the `fields.forEach` loop of `calculateConfidence` on a
dynamic value: `leadData[field] && leadData[field].trim().length > 0`.  A
truthy value that is not a string has no `trim` method, so the access
raises a `TypeError`. -/
def dynFieldPoint (v : JSVal) : Except String ℚ :=
  if v.truthy then
    match v with
    | .str s => Except.ok (if 0 < (jsTrim s).length then 1 else 0)
    | _ => Except.error "TypeError: trim is not a function"
  else Except.ok 0

/-- The email bonus on a dynamic `email` value.  The scorer only reaches
this line when `email` is falsy or a string, since a truthy non-string has
already raised in the field loop. -/
def dynEmailBonus (v : JSVal) : ℚ :=
  match v with
  | .str e => if e != "" && isValidEmail e then 1/2 else 0
  | _ => 0

/-- `calculateConfidence` on candidate fields of arbitrary dynamic shape
(text and metadata well-typed): the field loop may raise. -/
def calculateConfidenceDyn (leadData : DynFields) (transcriptionText : String)
    (metadata : Metadata) : Except String ℚ := do
  let p1 ← dynFieldPoint leadData.name
  let p2 ← dynFieldPoint leadData.email
  let p3 ← dynFieldPoint leadData.phone
  let p4 ← dynFieldPoint leadData.company
  let p5 ← dynFieldPoint leadData.interest
  let score := p1 + p2 + p3 + p4 + p5 + dynEmailBonus leadData.email +
    shortTextPenalty transcriptionText + durationSegmentAdjust metadata + paceBonus metadata
  return jsMax 0 (jsMin 1 (score / (5 + 3/2)))

/-- View of a string-or-nullish dynamic value as an optional string. -/
def JSVal.toOptStr : JSVal → Option String
  | .str s => some s
  | _ => none

/-- A dynamic value of a shape the scorer tolerates: every truthy value is
a string, so falsy values of any type count as absent. -/
def stringShaped (v : JSVal) : Prop := v.truthy = true → ∃ s, v = JSVal.str s

/-- The typed view of dynamic candidate fields. -/
def DynFields.toLeadFields (f : DynFields) : LeadFields :=
  ⟨f.name.toOptStr, f.email.toOptStr, f.phone.toOptStr, f.company.toOptStr,
    f.interest.toOptStr⟩

/-- `needle` occurs as a contiguous substring of `hay`. -/
def substrOf (needle hay : String) : Prop :=
  ∃ pre post : List Char, hay.data = pre ++ needle.data ++ post

/-- The optional remarks line of one labeled field: absent and empty
values produce no line. -/
def lineFor (lbl : String) (v : Option String) : Option String :=
  match v with
  | some s => if s = "" then none else some (lbl ++ " (low confidence): " ++ s)
  | none => none

/-- One remarks line of the documented format per non-absent, non-empty
field, in the fixed field order. -/
def labeledLines (f : LeadFields) : List String :=
  [("Name", f.name), ("Email", f.email), ("Phone", f.phone),
    ("Company", f.company), ("Interest", f.interest)].filterMap
    (fun p => lineFor p.1 p.2)

/-- The remarks format of the image fallback: the OCR text line (when the
text is non-empty) followed by the labeled field lines. -/
def imageRemarksSpec (d : OCRData) : String :=
  joinSep ((match d.ocrText with
    | some t => if t = "" then [] else ["OCR Text: " ++ t]
    | none => []) ++ labeledLines (ocrFields d))

/-- The remarks format of the voice fallback: the transcript line (when the
text is non-empty), an unconditional `Language:` line (the language
defaults to `"unknown"`), a `Duration:` line when the defaulted duration is
non-zero, then the labeled field lines. -/
def voiceRemarksSpec (tr : TranscriptionResult) (f : LeadFields) : String :=
  joinSep ((if jsOrStr tr.text "" = "" then [] else ["Transcript: " ++ jsOrStr tr.text ""]) ++
    ["Language: " ++ jsOrStr tr.language "unknown"] ++
    (if jsOrQ tr.duration 0 = 0 then [] else
      ["Duration: " ++ toFixed2 (jsOrQ tr.duration 0) ++ "s"]) ++
    labeledLines f)

theorem data_append (a b : String) : (a ++ b).data = a.data ++ b.data := rfl

theorem substrOf_refl (s : String) : substrOf s s :=
  ⟨[], [], by simp⟩

theorem substrOf_empty (hay : String) : substrOf "" hay :=
  ⟨hay.data, [], by simp⟩

theorem substrOf_trans {a b c : String} (h1 : substrOf a b) (h2 : substrOf b c) :
    substrOf a c := by
  obtain ⟨p1, q1, e1⟩ := h1
  obtain ⟨p2, q2, e2⟩ := h2
  exact ⟨p2 ++ p1, q1 ++ q2, by simp [e2, e1, List.append_assoc]⟩

theorem substrOf_append_right (a : String) {n b : String} (h : substrOf n b) :
    substrOf n (a ++ b) := by
  obtain ⟨p, q, e⟩ := h
  exact ⟨a.data ++ p, q, by simp [data_append, e, List.append_assoc]⟩

theorem substrOf_suffix (a n : String) : substrOf n (a ++ n) :=
  ⟨a.data, [], by simp [data_append]⟩

theorem substrOf_joinSep_of_mem {s : String} : ∀ {l : List String}, s ∈ l → substrOf s (joinSep l)
  | [], h => absurd h (List.not_mem_nil s)
  | [x], h => by
      rw [List.mem_singleton.mp h]
      exact substrOf_refl x
  | x :: y :: xs, h => by
      rcases List.mem_cons.mp h with rfl | h2
      · exact ⟨[], (" | " ++ joinSep (y :: xs)).data, by
          simp [joinSep, data_append, List.append_assoc]⟩
      · have ih := substrOf_joinSep_of_mem h2
        show substrOf s (x ++ " | " ++ joinSep (y :: xs))
        obtain ⟨p, q, e⟩ := ih
        exact ⟨(x ++ " | ").data ++ p, q, by simp [data_append, e, List.append_assoc]⟩

theorem jsOrStr_unknown_ne (v : Option String) : jsOrStr v "unknown" ≠ "" := by
  unfold jsOrStr
  cases v with
  | none => simp
  | some s => by_cases h : s = "" <;> simp [h]

theorem filterMap_toList {α β : Type} (g : α → Option β) (x : α) (l : List α) :
    List.filterMap g (x :: l) = (g x).toList ++ List.filterMap g l := by
  cases h : g x <;> simp [List.filterMap_cons, h]

theorem lineFor_toList (lbl : String) (v : Option String) :
    (lineFor lbl v).toList = fieldLine lbl v := by
  unfold lineFor fieldLine
  cases v with
  | none => rfl
  | some s => by_cases h : s = "" <;> simp [h]

theorem labeledLines_eq (f : LeadFields) :
    labeledLines f = fieldLine "Name" f.name ++ fieldLine "Email" f.email ++
      fieldLine "Phone" f.phone ++ fieldLine "Company" f.company ++
      fieldLine "Interest" f.interest := by
  unfold labeledLines
  rw [filterMap_toList, filterMap_toList, filterMap_toList, filterMap_toList,
    filterMap_toList, List.filterMap_nil]
  simp only [lineFor_toList]
  simp [List.append_assoc]

theorem clamp01_nonneg (x : ℚ) : 0 ≤ jsMax 0 (jsMin 1 x) := by
  unfold jsMax jsMin
  split_ifs <;> linarith

theorem clamp01_le_one (x : ℚ) : jsMax 0 (jsMin 1 x) ≤ 1 := by
  unfold jsMax jsMin
  split_ifs <;> linarith

theorem clamp01_of_neg {x : ℚ} (h : x < 0) : jsMax 0 (jsMin 1 x) = 0 := by
  unfold jsMax jsMin
  split_ifs <;> linarith

theorem clamp01_lt {a b : ℚ} (hb : 0 < b) (hab : a < b) (hb1 : b ≤ 1) :
    jsMax 0 (jsMin 1 a) < jsMax 0 (jsMin 1 b) := by
  unfold jsMax jsMin
  split_ifs <;> linarith

theorem fieldPoint_nonneg (v : Option String) : 0 ≤ fieldPoint v := by
  unfold fieldPoint
  split_ifs <;> norm_num

theorem fieldPoint_le_one (v : Option String) : fieldPoint v ≤ 1 := by
  unfold fieldPoint
  split_ifs <;> norm_num

theorem fieldScore_nonneg (l : LeadFields) : 0 ≤ fieldScore l := by
  unfold fieldScore
  have h1 := fieldPoint_nonneg l.name
  have h2 := fieldPoint_nonneg l.email
  have h3 := fieldPoint_nonneg l.phone
  have h4 := fieldPoint_nonneg l.company
  have h5 := fieldPoint_nonneg l.interest
  linarith

theorem fieldScore_le_five (l : LeadFields) : fieldScore l ≤ 5 := by
  unfold fieldScore
  have h1 := fieldPoint_le_one l.name
  have h2 := fieldPoint_le_one l.email
  have h3 := fieldPoint_le_one l.phone
  have h4 := fieldPoint_le_one l.company
  have h5 := fieldPoint_le_one l.interest
  linarith

theorem emailBonus_nonneg (v : Option String) : 0 ≤ emailBonus v := by
  unfold emailBonus
  split
  · split_ifs <;> norm_num
  · norm_num

theorem emailBonus_le_half (v : Option String) : emailBonus v ≤ 1/2 := by
  unfold emailBonus
  split
  · split_ifs <;> norm_num
  · norm_num

theorem shortTextPenalty_nonpos (t : String) : shortTextPenalty t ≤ 0 := by
  unfold shortTextPenalty
  split_ifs <;> norm_num

theorem durationSegmentAdjust_le (md : Metadata) : durationSegmentAdjust md ≤ 3/10 := by
  unfold durationSegmentAdjust
  cases md.duration <;> cases md.segments <;> simp only [] <;> try norm_num
  split_ifs <;> norm_num

theorem paceBonus_nonneg (md : Metadata) : 0 ≤ paceBonus md := by
  unfold paceBonus
  cases md.words <;> cases md.duration <;> simp only [] <;> try norm_num
  split_ifs <;> norm_num

theorem paceBonus_le (md : Metadata) : paceBonus md ≤ 1/5 := by
  unfold paceBonus
  cases md.words <;> cases md.duration <;> simp only [] <;> try norm_num
  split_ifs <;> norm_num

theorem ocrTextPenalty_nonpos (t : Option String) : ocrTextPenalty t ≤ 0 := by
  unfold ocrTextPenalty
  split
  · split_ifs <;> norm_num
  · norm_num

theorem rawScore_le_six (l : LeadFields) (t : String) (md : Metadata) :
    rawScore l t md ≤ 6 := by
  unfold rawScore
  have h1 := fieldScore_le_five l
  have h2 := emailBonus_le_half l.email
  have h3 := shortTextPenalty_nonpos t
  have h4 := durationSegmentAdjust_le md
  have h5 := paceBonus_le md
  linarith

theorem rawOCRScore_le (d : OCRData) : rawOCRScore d ≤ 11/2 := by
  unfold rawOCRScore
  have h1 := fieldScore_le_five (ocrFields d)
  have h2 := emailBonus_le_half d.email
  have h3 := ocrTextPenalty_nonpos d.ocrText
  linarith

theorem processAudioToLead_confidence (tr : TranscriptionResult) (l : LeadFields)
    (u v : String) :
    (processAudioToLead tr l u v).confidence =
      calculateConfidence l (jsOrStr tr.text "")
        ⟨some (jsOrQ tr.duration 0), some (jsOrStr tr.language "unknown"),
          some (jsOrList tr.segments []), some (jsOrList tr.words [])⟩ := rfl

theorem processAudioToLead_remarks (tr : TranscriptionResult) (l : LeadFields)
    (u v : String) :
    (processAudioToLead tr l u v).remarks =
      if (processAudioToLead tr l u v).confidence < CONFIDENCE_THRESHOLD then
        some (joinSep (audioPartialData (jsOrStr tr.text "") (jsOrStr tr.language "unknown")
          (jsOrQ tr.duration 0) l))
      else none := rfl

theorem processImageToLead_confidence (d : OCRData) (b : Option Int) (u : String) :
    (processImageToLead d b u).confidence = calculateOCRConfidence d := rfl

theorem processImageToLead_remarks (d : OCRData) (b : Option Int) (u : String) :
    (processImageToLead d b u).remarks =
      if calculateOCRConfidence d < CONFIDENCE_THRESHOLD then
        some (joinSep (imagePartialData d))
      else none := rfl

/-- All-absent candidate fields. -/
def lNone : LeadFields := ⟨none, none, none, none, none⟩

/-- Fully absent metadata (`metadata = {}`). -/
def mdNone : Metadata := ⟨none, none, none, none⟩

/-- An OCR record with all fields absent and a short, non-empty text. -/
def dShort : OCRData := ⟨none, none, none, none, none, some "x"⟩

/-- C2.  Clamp invariant: both scorers always return a confidence in
`[0, 1]`, a negative raw score clamps to exactly `0`, and (being total Lean
functions on the well-typed input shapes) they never error. -/
theorem c2_clamp_invariant :
    ∀ (l : LeadFields) (t : String) (md : Metadata) (d : OCRData),
      (0 ≤ calculateConfidence l t md ∧ calculateConfidence l t md ≤ 1) ∧
      (0 ≤ calculateOCRConfidence d ∧ calculateOCRConfidence d ≤ 1) ∧
      (rawScore l t md < 0 → calculateConfidence l t md = 0) ∧
      (rawOCRScore d < 0 → calculateOCRConfidence d = 0) := by
  intro l t md d
  refine ⟨⟨clamp01_nonneg _, clamp01_le_one _⟩, ⟨clamp01_nonneg _, clamp01_le_one _⟩, ?_, ?_⟩
  · intro h
    exact clamp01_of_neg (div_neg_of_neg_of_pos h (by norm_num))
  · intro h
    exact clamp01_of_neg (div_neg_of_neg_of_pos h (by norm_num))

/-- C2 witness: with everything absent and empty text the voice raw score
is `-1`, with all fields absent and a one-character OCR text the image raw
score is `-1`, and both confidences clamp to `0`. -/
theorem c2_clamp_invariant_witness :
    (rawScore lNone "" mdNone < 0 ∧ calculateConfidence lNone "" mdNone = 0) ∧
    (rawOCRScore dShort < 0 ∧ calculateOCRConfidence dShort = 0) := by
  have h1 : rawScore lNone "" mdNone < 0 := by
    simp +decide only [rawScore, fieldScore, fieldPoint, fieldPresent, emailBonus,
      shortTextPenalty, durationSegmentAdjust, paceBonus, jsTrim, lNone, mdNone]
    norm_num
  have h2 : rawOCRScore dShort < 0 := by
    simp +decide only [rawOCRScore, ocrFields, fieldScore, fieldPoint, fieldPresent,
      emailBonus, ocrTextPenalty, jsTrim, dShort]
    norm_num
  exact ⟨⟨h1, (c2_clamp_invariant lNone "" mdNone dShort).2.2.1 h1⟩,
    ⟨h2, (c2_clamp_invariant lNone "" mdNone dShort).2.2.2 h2⟩⟩

/-- The Scenario C input: fields `name` and `company` present, the other
three absent, and a 40-character OCR text. -/
def scenarioCData : OCRData :=
  ⟨some "John", none, none, some "Tech Inc", none,
    some "ABCDEFGHIJKLMNOPQRSTUVWXYZabcdefghijklmn"⟩

theorem confidence_scenario_c : calculateOCRConfidence scenarioCData = 4/11 := by
  simp +decide only [calculateOCRConfidence, rawOCRScore, fieldScore, ocrFields,
    fieldPoint, fieldPresent, emailBonus, ocrTextPenalty, jsTrim, jsMax, jsMin,
    scenarioCData]
  norm_num

theorem confidence_scenario_c_low :
    calculateOCRConfidence scenarioCData < CONFIDENCE_THRESHOLD := by
  rw [confidence_scenario_c]
  norm_num [CONFIDENCE_THRESHOLD]

/-- C3 counterexample: on the Scenario C input the image scorer returns
`2 / 5.5 = 4/11 ≈ 0.364`, not the claimed `2 / 2.5 = 0.8`; the result is
below the `0.6` threshold and the fallback does fire (remarks non-null). -/
theorem c3_counterexample :
    calculateOCRConfidence scenarioCData = 4/11 ∧ ((4:ℚ)/11 ≠ 4/5) ∧
      calculateOCRConfidence scenarioCData < CONFIDENCE_THRESHOLD ∧
      (processImageToLead scenarioCData none "url").remarks ≠ none := by
  refine ⟨confidence_scenario_c, by norm_num, confidence_scenario_c_low, ?_⟩
  rw [processImageToLead_remarks, if_pos confidence_scenario_c_low]
  simp

/-- C3 (amended): on the Scenario C input the score is `2 / 5.5 = 4/11`,
which is below the `0.6` threshold, so the fallback is triggered and the
remarks preserve the OCR text and both present fields. -/
theorem c3_scenario_c_amended :
    calculateOCRConfidence scenarioCData = 4/11 ∧
      calculateOCRConfidence scenarioCData < CONFIDENCE_THRESHOLD ∧
      (processImageToLead scenarioCData none "url").remarks =
        some ("OCR Text: ABCDEFGHIJKLMNOPQRSTUVWXYZabcdefghijklmn | " ++
          "Name (low confidence): John | Company (low confidence): Tech Inc") := by
  refine ⟨confidence_scenario_c, confidence_scenario_c_low, ?_⟩
  rw [processImageToLead_remarks, if_pos confidence_scenario_c_low]
  simp +decide only [imagePartialData, fieldLine, scenarioCData, joinSep]

/-- The Scenario A transcript: a 120-character text. -/
def textA : String := ⟨List.replicate 120 'a'⟩

/-- The Scenario A segments: four segments of 15 characters each. -/
def segsA : List Segment := List.replicate 4 ⟨some "123456789012345"⟩

/-- The Scenario A word list: 20 words. -/
def wordsA : List String := List.replicate 20 "w"

/-- The Scenario A candidate fields. -/
def fieldsA : LeadFields :=
  ⟨some "Jane Smith", some "jane@x.com", some "+1234567890", some "Acme", some "CTO"⟩

/-- The Scenario A metadata: duration 8 s, four 15-character segments,
20 words. -/
def mdA : Metadata := ⟨some 8, some "en", some segsA, some wordsA⟩

theorem fieldScore_fieldsA : fieldScore fieldsA = 5 := by
  simp +decide only [fieldScore, fieldPoint, fieldPresent, jsTrim, fieldsA]
  norm_num

theorem emailBonus_fieldsA : emailBonus fieldsA.email = 1/2 := by
  simp +decide only [emailBonus, fieldsA]
  norm_num

theorem shortTextPenalty_textA : shortTextPenalty textA = 0 := by
  unfold shortTextPenalty
  rw [if_neg (by decide)]

theorem avgSegLen_segsA : avgSegLen segsA = 15 := by
  simp +decide only [avgSegLen, segsA, segTextLen, List.replicate, List.foldl,
    List.length_replicate]
  rw [show "123456789012345".length = 15 from by decide]
  norm_num

theorem durationSegmentAdjust_mdA : durationSegmentAdjust mdA = 3/10 := by
  simp only [durationSegmentAdjust, mdA]
  rw [avgSegLen_segsA]
  norm_num [segsA]

theorem paceBonus_mdA : paceBonus mdA = 1/5 := by
  simp only [paceBonus, mdA]
  norm_num [wordsA]

theorem confidence_scenario_a : calculateConfidence fieldsA textA mdA = 12/13 := by
  unfold calculateConfidence rawScore
  rw [fieldScore_fieldsA, emailBonus_fieldsA, shortTextPenalty_textA,
    durationSegmentAdjust_mdA, paceBonus_mdA]
  norm_num [jsMax, jsMin]

/-- C7 counterexample: on the Scenario A input the voice scorer returns
`6 / 6.5 = 12/13 ≈ 0.923`, which differs from the claimed `≈ 0.85` by more
than `0.05`. -/
theorem c7_counterexample :
    calculateConfidence fieldsA textA mdA = 12/13 ∧ (1:ℚ)/20 < 12/13 - 17/20 :=
  ⟨confidence_scenario_a, by norm_num⟩

/-- C7 (amended): on the Scenario A input the confidence is
`6 / 6.5 = 12/13 ≈ 0.923` (not `≈ 0.85`), it is at or above the threshold,
and the fallback is not triggered. -/
theorem c7_scenario_a_amended :
    calculateConfidence fieldsA textA mdA = 12/13 ∧
      ¬(calculateConfidence fieldsA textA mdA < CONFIDENCE_THRESHOLD) ∧
      (processAudioToLead ⟨some textA, some 8, some "en", some segsA, some wordsA⟩
        fieldsA "u" "v").remarks = none := by
  have hmd : (processAudioToLead ⟨some textA, some 8, some "en", some segsA, some wordsA⟩
      fieldsA "u" "v").confidence = calculateConfidence fieldsA textA mdA := by
    rw [processAudioToLead_confidence]
    have h1 : jsOrStr (some textA) "" = textA := by
      simp only [jsOrStr]
      rw [if_neg (by decide)]
    have h2 : jsOrQ (some (8:ℚ)) 0 = 8 := by
      simp only [jsOrQ]
      rw [if_neg (by norm_num)]
    have h3 : jsOrStr (some "en") "unknown" = "en" := by
      simp only [jsOrStr]
      rw [if_neg (by decide)]
    rw [h1, h2, h3]
    rfl
  refine ⟨confidence_scenario_a, ?_, ?_⟩
  · rw [confidence_scenario_a]
    norm_num [CONFIDENCE_THRESHOLD]
  · rw [processAudioToLead_remarks, if_neg]
    rw [hmd, confidence_scenario_a]
    norm_num [CONFIDENCE_THRESHOLD]

/-- A transcription result with every member absent. -/
def trEmpty : TranscriptionResult := ⟨none, none, none, none, none⟩

/-- An OCR response with every member absent. -/
def dEmpty : OCRData := ⟨none, none, none, none, none, none⟩

/-- The metadata defaults the voice pipeline substitutes when the backend
supplies no verbose output. -/
def mdDefaults : Metadata := ⟨some 0, some "unknown", some [], some []⟩

theorem fieldScore_lNone : fieldScore lNone = 0 := by
  simp only [fieldScore, lNone, fieldPoint, fieldPresent]
  norm_num

theorem shortTextPenalty_empty : shortTextPenalty "" = -1 := by
  unfold shortTextPenalty
  rw [if_pos (by decide)]

theorem rawScore_lNone_mdDefaults : rawScore lNone "" mdDefaults = -1 := by
  unfold rawScore
  rw [fieldScore_lNone, shortTextPenalty_empty]
  have h1 : emailBonus lNone.email = 0 := rfl
  have h2 : durationSegmentAdjust mdDefaults = 0 := by
    simp only [durationSegmentAdjust, mdDefaults]
    norm_num
  have h3 : paceBonus mdDefaults = 0 := by
    simp only [paceBonus, mdDefaults]
    norm_num
  rw [h1, h2, h3]
  norm_num

theorem confidence_lNone_mdDefaults : calculateConfidence lNone "" mdDefaults = 0 := by
  unfold calculateConfidence
  rw [rawScore_lNone_mdDefaults]
  norm_num [jsMax, jsMin]

theorem audio_trEmpty_confidence :
    (processAudioToLead trEmpty lNone "u" "v").confidence =
      calculateConfidence lNone "" mdDefaults := by
  rw [processAudioToLead_confidence]
  simp only [trEmpty, jsOrStr, jsOrQ, jsOrList, mdDefaults]

theorem rawOCRScore_dEmpty : rawOCRScore dEmpty = 0 := by
  unfold rawOCRScore
  have h1 : ocrFields dEmpty = lNone := rfl
  rw [h1, fieldScore_lNone]
  norm_num [dEmpty, emailBonus, ocrTextPenalty]

theorem confidence_dEmpty : calculateOCRConfidence dEmpty = 0 := by
  unfold calculateOCRConfidence
  rw [rawOCRScore_dEmpty]
  norm_num [jsMax, jsMin]

/-- C4 counterexample: with confidence below the threshold, every field
null and empty raw text, `remarks` is NOT null as claimed: the voice path
stores `"Language: unknown"` (the language defaults to `'unknown'`, which
is truthy and always pushed) and the image path stores the empty string. -/
theorem c4_counterexample :
    (processAudioToLead trEmpty lNone "u" "v").confidence < CONFIDENCE_THRESHOLD ∧
      (processAudioToLead trEmpty lNone "u" "v").remarks = some "Language: unknown" ∧
      (processImageToLead dEmpty none "u").confidence < CONFIDENCE_THRESHOLD ∧
      (processImageToLead dEmpty none "u").remarks = some "" := by
  have hv : (processAudioToLead trEmpty lNone "u" "v").confidence < CONFIDENCE_THRESHOLD := by
    rw [audio_trEmpty_confidence, confidence_lNone_mdDefaults]
    norm_num [CONFIDENCE_THRESHOLD]
  have hi : (processImageToLead dEmpty none "u").confidence < CONFIDENCE_THRESHOLD := by
    rw [processImageToLead_confidence, confidence_dEmpty]
    norm_num [CONFIDENCE_THRESHOLD]
  refine ⟨hv, ?_, hi, ?_⟩
  · rw [processAudioToLead_remarks, if_pos hv]
    have hpd : audioPartialData (jsOrStr trEmpty.text "") (jsOrStr trEmpty.language "unknown")
        (jsOrQ trEmpty.duration 0) lNone = ["Language: unknown"] := by
      simp only [trEmpty, jsOrStr, jsOrQ, audioPartialData, lNone, fieldLine]
      decide
    rw [hpd]
    rfl
  · rw [processImageToLead_remarks, if_pos]
    · rfl
    · rw [confidence_dEmpty]
      norm_num [CONFIDENCE_THRESHOLD]

/-- C4 (amended): with every field null and empty/absent raw text the
confidence is below the threshold and the fallback is triggered, but
`remarks` is non-null: the image path produces the empty string, and the
voice path a non-null string (at least the `Language:` line, since the
language defaults to `'unknown'`). -/
theorem c4_empty_signal_amended :
    (∀ (tr : TranscriptionResult) (u v : String),
      (tr.text = none ∨ tr.text = some "") →
      (processAudioToLead tr lNone u v).confidence < CONFIDENCE_THRESHOLD ∧
        (processAudioToLead tr lNone u v).remarks ≠ none) ∧
    (∀ (d : OCRData) (b : Option Int) (u : String),
      d.name = none → d.email = none → d.phone = none → d.company = none →
      d.interest = none → (d.ocrText = none ∨ d.ocrText = some "") →
      (processImageToLead d b u).confidence < CONFIDENCE_THRESHOLD ∧
        (processImageToLead d b u).remarks = some "") := by
  constructor
  · intro tr u v htext
    have ht : jsOrStr tr.text "" = "" := by
      rcases htext with h | h <;> simp [jsOrStr, h]
    have hraw : rawScore lNone ""
        ⟨some (jsOrQ tr.duration 0), some (jsOrStr tr.language "unknown"),
          some (jsOrList tr.segments []), some (jsOrList tr.words [])⟩ < 0 := by
      unfold rawScore
      rw [fieldScore_lNone, shortTextPenalty_empty]
      have h1 : emailBonus lNone.email = 0 := rfl
      have h4 := durationSegmentAdjust_le
        (⟨some (jsOrQ tr.duration 0), some (jsOrStr tr.language "unknown"),
          some (jsOrList tr.segments []), some (jsOrList tr.words [])⟩ : Metadata)
      have h5 := paceBonus_le
        (⟨some (jsOrQ tr.duration 0), some (jsOrStr tr.language "unknown"),
          some (jsOrList tr.segments []), some (jsOrList tr.words [])⟩ : Metadata)
      rw [h1]
      linarith
    have hconf : (processAudioToLead tr lNone u v).confidence < CONFIDENCE_THRESHOLD := by
      rw [processAudioToLead_confidence, ht]
      unfold calculateConfidence
      rw [clamp01_of_neg (div_neg_of_neg_of_pos hraw (by norm_num))]
      norm_num [CONFIDENCE_THRESHOLD]
    refine ⟨hconf, ?_⟩
    rw [processAudioToLead_remarks, if_pos hconf]
    simp
  · intro d b u hn he hp hc hi htext
    have hfields : ocrFields d = lNone := by
      simp [ocrFields, lNone, hn, he, hp, hc, hi]
    have hpen : ocrTextPenalty d.ocrText = 0 := by
      rcases htext with h | h <;> simp [ocrTextPenalty, h]
    have hraw : rawOCRScore d = 0 := by
      unfold rawOCRScore
      rw [hfields, fieldScore_lNone, he, hpen]
      norm_num [emailBonus]
    have hconf : (processImageToLead d b u).confidence < CONFIDENCE_THRESHOLD := by
      rw [processImageToLead_confidence]
      unfold calculateOCRConfidence
      rw [hraw]
      norm_num [jsMax, jsMin, CONFIDENCE_THRESHOLD]
    refine ⟨hconf, ?_⟩
    rw [processImageToLead_remarks, if_pos]
    · have hpd : imagePartialData d = [] := by
        simp only [imagePartialData, hn, he, hp, hc, hi, fieldLine]
        rcases htext with h | h <;> simp [h]
      rw [hpd]
      rfl
    · rw [processImageToLead_confidence] at hconf
      exact hconf

/-- C4 witness: the amended statement at the all-absent voice and image
inputs. -/
theorem c4_empty_signal_amended_witness :
    (trEmpty.text = none ∨ trEmpty.text = some "") ∧
      ((processAudioToLead trEmpty lNone "u" "v").confidence < CONFIDENCE_THRESHOLD ∧
        (processAudioToLead trEmpty lNone "u" "v").remarks ≠ none) ∧
      ((processImageToLead dEmpty none "u").confidence < CONFIDENCE_THRESHOLD ∧
        (processImageToLead dEmpty none "u").remarks = some "") :=
  ⟨Or.inl rfl,
    c4_empty_signal_amended.1 trEmpty "u" "v" (Or.inl rfl),
    c4_empty_signal_amended.2 dEmpty none "u" rfl rfl rfl rfl rfl (Or.inl rfl)⟩

/-- Metadata with duration `0`, empty segments and empty words (present
values, as the voice pipeline always supplies). -/
def mdDur0 : Metadata := ⟨some 0, some "en", some [], some []⟩

/-- Metadata identical to `mdDur0` except that the duration is `3`. -/
def mdDur3 : Metadata := ⟨some 3, some "en", some [], some []⟩

theorem rawScore_lNone_mdDur0 : rawScore lNone "" mdDur0 = -1 := by
  unfold rawScore
  rw [fieldScore_lNone, shortTextPenalty_empty]
  have h1 : emailBonus lNone.email = 0 := rfl
  have h2 : durationSegmentAdjust mdDur0 = 0 := by
    simp only [durationSegmentAdjust, mdDur0]
    norm_num
  have h3 : paceBonus mdDur0 = 0 := by
    simp only [paceBonus, mdDur0]
    norm_num
  rw [h1, h2, h3]
  norm_num

theorem rawScore_lNone_mdDur3 : rawScore lNone "" mdDur3 = -1 := by
  unfold rawScore
  rw [fieldScore_lNone, shortTextPenalty_empty]
  have h1 : emailBonus lNone.email = 0 := rfl
  have h2 : durationSegmentAdjust mdDur3 = 0 := by
    simp only [durationSegmentAdjust, mdDur3]
    norm_num
  have h3 : paceBonus mdDur3 = 0 := by
    simp only [paceBonus, mdDur3]
    norm_num
  rw [h1, h2, h3]
  norm_num

/-- C8 counterexample: with metadata present, duration `0` (which is `< 2`)
and an empty segments array, the raw score is NOT reduced by `0.5`: the
guard `metadata.duration && metadata.segments` is falsy because `0` is
falsy, so the raw score equals that of the identical input with duration
`3` instead of being `0.5` lower. -/
theorem c8_counterexample :
    rawScore lNone "" mdDur0 = rawScore lNone "" mdDur3 ∧
      rawScore lNone "" mdDur0 ≠ rawScore lNone "" mdDur3 - 1/2 := by
  rw [rawScore_lNone_mdDur0, rawScore_lNone_mdDur3]
  norm_num

/-- C8 (amended): the `-0.5` short-duration penalty applies exactly when
the metadata guard passes, i.e. when the duration is present and non-zero
(truthy) and a segments value is present.  For a duration `d ≠ 0` with
`d < 2` the raw score is exactly `0.5` lower than with a duration
`d' ≥ 2`, all else fixed (with an absent or empty word list, so that the
pace bonus is unaffected by the duration change); with duration `0` or an
absent segments value the guard is falsy and no penalty applies. -/
theorem c8_short_duration_penalty_amended :
    ∀ (l : LeadFields) (t : String) (d d' : ℚ) (segs : List Segment)
      (lg : Option String) (ws : Option (List String)),
      d ≠ 0 → d < 2 → 2 ≤ d' → (ws = none ∨ ws = some []) →
      rawScore l t ⟨some d, lg, some segs, ws⟩ =
        rawScore l t ⟨some d', lg, some segs, ws⟩ - 1/2 := by
  intro l t d d' segs lg ws hd0 hd2 hd2' hws
  have hd' : d' ≠ 0 := by
    intro h
    rw [h] at hd2'
    norm_num at hd2'
  have hpace : paceBonus ⟨some d, lg, some segs, ws⟩ =
      paceBonus ⟨some d', lg, some segs, ws⟩ := by
    rcases hws with rfl | rfl
    · rfl
    · simp only [paceBonus, List.length_nil, Nat.cast_zero, zero_div]
      split_ifs <;> first | rfl | linarith
  unfold rawScore
  rw [hpace]
  have hadj : durationSegmentAdjust ⟨some d, lg, some segs, ws⟩ =
      durationSegmentAdjust ⟨some d', lg, some segs, ws⟩ - 1/2 := by
    simp only [durationSegmentAdjust]
    rw [if_pos hd0, if_pos hd', if_pos hd2, if_neg (by linarith : ¬(d' < 2))]
    ring
  rw [hadj]
  ring

/-- C8 witness: the amended statement at duration `1` versus duration `3`
with empty segments and words. -/
theorem c8_short_duration_penalty_amended_witness :
    ((1:ℚ) ≠ 0) ∧ ((1:ℚ) < 2) ∧ ((2:ℚ) ≤ 3) ∧
      rawScore lNone "" ⟨some 1, some "en", some [], some []⟩ =
        rawScore lNone "" ⟨some 3, some "en", some [], some []⟩ - 1/2 :=
  ⟨by norm_num, by norm_num, by norm_num,
    c8_short_duration_penalty_amended lNone "" 1 3 [] (some "en") (some [])
      (by norm_num) (by norm_num) (by norm_num) (Or.inr rfl)⟩

/-- Metadata with an absent segments value but duration `4` and eight
words. -/
def mdNoSegs : Metadata := ⟨some 4, some "en", none, some (List.replicate 8 "w")⟩

/-- C10 counterexample: with an absent segments value but a positive
duration and a natural word pace, the words-per-second bonus still applies
(`paceBonus = 0.2`), and on an otherwise maximal input the confidence is
`5.7/6.5 = 57/65 ≈ 0.877`, exceeding the claimed ceiling
`5.5/6.5 = 11/13 ≈ 0.846`. -/
theorem c10_counterexample :
    paceBonus mdNoSegs = 1/5 ∧
      calculateConfidence fieldsA textA mdNoSegs = 57/65 ∧
      ¬((57:ℚ)/65 ≤ 11/13) := by
  have hpb : paceBonus mdNoSegs = 1/5 := by
    simp only [paceBonus, mdNoSegs, List.length_replicate]
    norm_num
  have hdsa : durationSegmentAdjust mdNoSegs = 0 := rfl
  refine ⟨hpb, ?_, by norm_num⟩
  unfold calculateConfidence rawScore
  rw [fieldScore_fieldsA, emailBonus_fieldsA, shortTextPenalty_textA, hdsa, hpb]
  norm_num [jsMax, jsMin]

/-- C10 (amended): when the (defaulted) duration is `0` or the duration is
wholly absent — as when the transcription backend supplies no verbose
output — the duration/segment guard and the pace guard are both falsy, so
no duration penalty, segment bonus or pace bonus applies; the divisor stays
`6.5`, the raw score is at most `5.5`, and the confidence is at most
`5.5/6.5 = 11/13 ≈ 0.846`, so confidence `1.0` is unreachable.  (With only
the segments value absent but a positive duration the pace bonus can still
apply, so the ceiling fails in that case; see the counterexample.) -/
theorem c10_no_metadata_ceiling_amended :
    ∀ (l : LeadFields) (t : String) (md : Metadata),
      (md.duration = some 0 ∨ md.duration = none) →
      durationSegmentAdjust md = 0 ∧ paceBonus md = 0 ∧
        rawScore l t md ≤ 11/2 ∧ calculateConfidence l t md ≤ 11/13 := by
  intro l t md hmd
  have hdsa : durationSegmentAdjust md = 0 := by
    unfold durationSegmentAdjust
    rcases hmd with h | h <;> rw [h] <;> cases md.segments <;> simp
  have hpb : paceBonus md = 0 := by
    unfold paceBonus
    rcases hmd with h | h <;> rw [h] <;> cases md.words <;> simp
  have hraw : rawScore l t md ≤ 11/2 := by
    unfold rawScore
    rw [hdsa, hpb]
    have h1 := fieldScore_le_five l
    have h2 := emailBonus_le_half l.email
    have h3 := shortTextPenalty_nonpos t
    linarith
  refine ⟨hdsa, hpb, hraw, ?_⟩
  have hdiv : rawScore l t md / (5 + 3/2) ≤ 11/13 := by
    rw [div_le_iff (by norm_num)]
    linarith
  unfold calculateConfidence jsMax jsMin
  split_ifs <;> linarith

/-- C10 witness: the amended statement at all-absent fields, empty text and
the defaulted duration-`0` metadata. -/
theorem c10_no_metadata_ceiling_amended_witness :
    (mdDefaults.duration = some 0 ∨ mdDefaults.duration = none) ∧
      (durationSegmentAdjust mdDefaults = 0 ∧ paceBonus mdDefaults = 0 ∧
        rawScore lNone "" mdDefaults ≤ 11/2 ∧
        calculateConfidence lNone "" mdDefaults ≤ 11/13) :=
  ⟨Or.inl rfl, c10_no_metadata_ceiling_amended lNone "" mdDefaults (Or.inl rfl)⟩

/-- An OCR record with one present field and a 15-character text. -/
def dText15 : OCRData := ⟨some "John", none, none, none, none, some "123456789012345"⟩

/-- An OCR record identical to `dText15` except for a 25-character text. -/
def dText25 : OCRData :=
  ⟨some "John", none, none, none, none, some "1234567890123456789012345"⟩

/-- C9 counterexample: for the image modality the penalty boundary is 10,
not 20: two otherwise-identical calls with text lengths 15 (`< 20`) and 25
(`≥ 20`) score exactly the same confidence, not strictly lower. -/
theorem c9_counterexample :
    calculateOCRConfidence dText15 = calculateOCRConfidence dText25 ∧
      ¬(calculateOCRConfidence dText15 < calculateOCRConfidence dText25) := by
  have h15 : calculateOCRConfidence dText15 = 2/11 := by
    simp +decide only [calculateOCRConfidence, rawOCRScore, fieldScore, ocrFields,
      fieldPoint, fieldPresent, emailBonus, ocrTextPenalty, jsTrim, jsMax, jsMin, dText15]
    norm_num
  have h25 : calculateOCRConfidence dText25 = 2/11 := by
    simp +decide only [calculateOCRConfidence, rawOCRScore, fieldScore, ocrFields,
      fieldPoint, fieldPresent, emailBonus, ocrTextPenalty, jsTrim, jsMax, jsMin, dText25]
    norm_num
  rw [h15, h25]
  exact ⟨rfl, lt_irrefl _⟩

/-- C9 (amended): the strict short-text penalty holds with two repairs: the
image boundary is 10 (and only non-empty text is penalized, since empty
text is falsy), and strictness additionally requires the unpenalized call
to have a positive raw score (otherwise both confidences clamp to `0`).
Voice: length `< 20` versus `≥ 20`; image: non-empty length `< 10` versus
`≥ 10`. -/
theorem c9_short_text_strict_amended :
    (∀ (l : LeadFields) (md : Metadata) (t1 t2 : String),
      t1.length < 20 → 20 ≤ t2.length → 0 < rawScore l t2 md →
      calculateConfidence l t1 md < calculateConfidence l t2 md) ∧
    (∀ (n e p c i : Option String) (t1 t2 : String),
      t1 ≠ "" → t1.length < 10 → 10 ≤ t2.length →
      0 < rawOCRScore ⟨n, e, p, c, i, some t2⟩ →
      calculateOCRConfidence ⟨n, e, p, c, i, some t1⟩ <
        calculateOCRConfidence ⟨n, e, p, c, i, some t2⟩) := by
  constructor
  · intro l md t1 t2 h1 h2 hpos
    have hp1 : shortTextPenalty t1 = -1 := by
      unfold shortTextPenalty
      rw [if_pos h1]
    have hp2 : shortTextPenalty t2 = 0 := by
      unfold shortTextPenalty
      rw [if_neg (by omega)]
    have hraw : rawScore l t1 md = rawScore l t2 md - 1 := by
      unfold rawScore
      rw [hp1, hp2]
      ring
    unfold calculateConfidence
    apply clamp01_lt
    · exact div_pos hpos (by norm_num)
    · rw [hraw]
      exact (div_lt_div_right (by norm_num)).mpr (by linarith)
    · rw [div_le_one (by norm_num)]
      have := rawScore_le_six l t2 md
      linarith
  · intro n e p c i t1 t2 hne h1 h2 hpos
    have hp1 : ocrTextPenalty (some t1) = -1 := by
      simp only [ocrTextPenalty]
      rw [if_pos (by simp [hne, h1])]
    have hp2 : ocrTextPenalty (some t2) = 0 := by
      simp only [ocrTextPenalty]
      rw [if_neg (by simp only [Bool.and_eq_true, bne_iff_ne, ne_eq,
        decide_eq_true_eq, not_and]; intro _; omega)]
    have hraw : rawOCRScore ⟨n, e, p, c, i, some t1⟩ =
        rawOCRScore ⟨n, e, p, c, i, some t2⟩ - 1 := by
      simp only [rawOCRScore, ocrFields]
      rw [hp1, hp2]
      ring
    unfold calculateOCRConfidence
    apply clamp01_lt
    · exact div_pos hpos (by norm_num)
    · rw [hraw]
      exact (div_lt_div_right (by norm_num)).mpr (by linarith)
    · rw [div_le_one (by norm_num)]
      have := rawOCRScore_le ⟨n, e, p, c, i, some t2⟩
      linarith

/-- C9 witness: the amended statement at concrete voice and image inputs. -/
theorem c9_short_text_strict_amended_witness :
    ("hi".length < 20 ∧ 20 ≤ textA.length ∧ 0 < rawScore fieldsA textA mdNone ∧
      calculateConfidence fieldsA "hi" mdNone < calculateConfidence fieldsA textA mdNone) ∧
    ("abc" ≠ "" ∧ "abc".length < 10 ∧ 10 ≤ "1234567890".length ∧
      0 < rawOCRScore ⟨some "John", none, none, none, none, some "1234567890"⟩ ∧
      calculateOCRConfidence ⟨some "John", none, none, none, none, some "abc"⟩ <
        calculateOCRConfidence ⟨some "John", none, none, none, none, some "1234567890"⟩) := by
  have hposv : 0 < rawScore fieldsA textA mdNone := by
    unfold rawScore
    rw [fieldScore_fieldsA, emailBonus_fieldsA, shortTextPenalty_textA]
    have h1 : durationSegmentAdjust mdNone = 0 := rfl
    have h2 : paceBonus mdNone = 0 := rfl
    rw [h1, h2]
    norm_num
  have hposi : 0 < rawOCRScore ⟨some "John", none, none, none, none, some "1234567890"⟩ := by
    simp +decide only [rawOCRScore, ocrFields, fieldScore, fieldPoint, fieldPresent,
      emailBonus, ocrTextPenalty, jsTrim]
    norm_num
  exact ⟨⟨by decide, by decide, hposv,
      c9_short_text_strict_amended.1 fieldsA mdNone "hi" textA (by decide) (by decide) hposv⟩,
    ⟨by decide, by decide, by decide, hposi,
      c9_short_text_strict_amended.2 (some "John") none none none none "abc" "1234567890"
        (by decide) (by decide) (by decide) hposi⟩⟩

/-- Coverage of every non-null, non-empty candidate field by its labeled
line inside a remarks string. -/
def remarksCoverFields (r : String) (f : LeadFields) : Prop :=
  (∀ s, f.name = some s → s ≠ "" → substrOf ("Name (low confidence): " ++ s) r) ∧
  (∀ s, f.email = some s → s ≠ "" → substrOf ("Email (low confidence): " ++ s) r) ∧
  (∀ s, f.phone = some s → s ≠ "" → substrOf ("Phone (low confidence): " ++ s) r) ∧
  (∀ s, f.company = some s → s ≠ "" → substrOf ("Company (low confidence): " ++ s) r) ∧
  (∀ s, f.interest = some s → s ≠ "" → substrOf ("Interest (low confidence): " ++ s) r)

/-- An OCR record whose `name` is the non-null empty string. -/
def dEmptyName : OCRData := ⟨some "", none, none, none, none, some ""⟩

/-- C1 counterexample: with the non-null candidate field `name = ""`, empty
OCR text and confidence `0 < 0.6`, the remarks string is `""` and does not
contain the labeled line for the non-null `name` field: the code's
truthiness check silently drops empty-string fields. -/
theorem c1_counterexample :
    (processImageToLead dEmptyName none "u").confidence < CONFIDENCE_THRESHOLD ∧
      dEmptyName.name ≠ none ∧
      (processImageToLead dEmptyName none "u").remarks = some "" ∧
      ¬ substrOf ("Name (low confidence): " ++ "") "" := by
  have hraw : rawOCRScore dEmptyName = 0 := by
    simp +decide only [rawOCRScore, ocrFields, fieldScore, fieldPoint, fieldPresent,
      emailBonus, ocrTextPenalty, jsTrim, dEmptyName]
    norm_num
  have hc : calculateOCRConfidence dEmptyName = 0 := by
    unfold calculateOCRConfidence
    rw [hraw]
    norm_num [jsMax, jsMin]
  have hlow : (processImageToLead dEmptyName none "u").confidence < CONFIDENCE_THRESHOLD := by
    rw [processImageToLead_confidence, hc]
    norm_num [CONFIDENCE_THRESHOLD]
  refine ⟨hlow, by simp [dEmptyName], ?_, ?_⟩
  · rw [processImageToLead_remarks, if_pos]
    · simp +decide only [imagePartialData, fieldLine, dEmptyName, joinSep]
    · rw [hc]
      norm_num [CONFIDENCE_THRESHOLD]
  · rintro ⟨pre, post, h⟩
    have h0 : ("" : String).data = [] := rfl
    rw [h0] at h
    rcases List.append_eq_nil.mp h.symm with ⟨h2, -⟩
    rcases List.append_eq_nil.mp h2 with ⟨-, h5⟩
    exact absurd h5 (by decide)

/-- C1 (amended): zero-data-loss holds for non-null, non-empty fields: when
the confidence is below the threshold and at least one field is non-null,
the remarks string contains the full raw transcript/OCR text and, for every
non-null and non-empty candidate field, its full labeled line
`"<Field> (low confidence): <value>"`.  A non-null field holding the empty
string is falsy in JS and its labeled line is dropped. -/
theorem c1_zero_data_loss_amended :
    (∀ (tr : TranscriptionResult) (l : LeadFields) (u v : String),
      (processAudioToLead tr l u v).confidence < CONFIDENCE_THRESHOLD →
      (l.name ≠ none ∨ l.email ≠ none ∨ l.phone ≠ none ∨ l.company ≠ none ∨
        l.interest ≠ none) →
      substrOf (jsOrStr tr.text "") ((processAudioToLead tr l u v).remarks.getD "") ∧
        remarksCoverFields ((processAudioToLead tr l u v).remarks.getD "") l) ∧
    (∀ (d : OCRData) (b : Option Int) (u : String),
      (processImageToLead d b u).confidence < CONFIDENCE_THRESHOLD →
      (d.name ≠ none ∨ d.email ≠ none ∨ d.phone ≠ none ∨ d.company ≠ none ∨
        d.interest ≠ none) →
      substrOf (jsOrStr d.ocrText "") ((processImageToLead d b u).remarks.getD "") ∧
        remarksCoverFields ((processImageToLead d b u).remarks.getD "") (ocrFields d)) := by
  constructor
  · intro tr l u v hconf _
    rw [processAudioToLead_remarks, if_pos hconf]
    simp only [Option.getD_some]
    constructor
    · by_cases ht : jsOrStr tr.text "" = ""
      · rw [ht]
        exact substrOf_empty _
      · refine substrOf_trans (substrOf_suffix "Transcript: " _) (substrOf_joinSep_of_mem ?_)
        simp only [audioPartialData, if_neg ht, List.mem_append, List.mem_singleton]
        tauto
    · refine ⟨?_, ?_, ?_, ?_, ?_⟩ <;> intro s hs hne <;>
        refine substrOf_joinSep_of_mem ?_ <;>
        simp only [audioPartialData, fieldLine, hs, if_neg hne, List.mem_append,
          List.mem_singleton] <;>
        tauto
  · intro d b u hconf _
    rw [processImageToLead_remarks] at *
    rw [if_pos]
    swap
    · rw [processImageToLead_confidence] at hconf
      exact hconf
    simp only [Option.getD_some]
    constructor
    · cases ho : d.ocrText with
      | none =>
          simp only [ho, jsOrStr]
          exact substrOf_empty _
      | some t =>
          by_cases hs : t = ""
          · simp only [ho, jsOrStr, if_pos hs]
            exact substrOf_empty _
          · have hjs : jsOrStr (some t) "" = t := by simp [jsOrStr, hs]
            rw [hjs]
            refine substrOf_trans (substrOf_suffix "OCR Text: " t) (substrOf_joinSep_of_mem ?_)
            simp only [imagePartialData, ho]
            rw [if_neg hs]
            simp only [List.mem_append, List.mem_singleton]
            tauto
    · refine ⟨?_, ?_, ?_, ?_, ?_⟩ <;> intro s hs hne <;>
        simp only [ocrFields] at hs <;>
        refine substrOf_joinSep_of_mem ?_ <;>
        simp only [imagePartialData, fieldLine, hs, if_neg hne,
          List.mem_append, List.mem_singleton] <;>
        tauto

/-- An OCR record with a present `name` and a short, non-empty text. -/
def dC1 : OCRData := ⟨some "Jo", none, none, none, none, some "note"⟩

theorem confidence_dC1 : calculateOCRConfidence dC1 = 0 := by
  have hraw : rawOCRScore dC1 = 0 := by
    simp +decide only [rawOCRScore, ocrFields, fieldScore, fieldPoint, fieldPresent,
      emailBonus, ocrTextPenalty, jsTrim, dC1]
    norm_num
  unfold calculateOCRConfidence
  rw [hraw]
  norm_num [jsMax, jsMin]

/-- C1 witness: the amended statement at a concrete low-confidence image
input with a non-null field. -/
theorem c1_zero_data_loss_amended_witness :
    ((processImageToLead dC1 none "u").confidence < CONFIDENCE_THRESHOLD ∧
      dC1.name ≠ none) ∧
      (substrOf (jsOrStr dC1.ocrText "") ((processImageToLead dC1 none "u").remarks.getD "") ∧
        remarksCoverFields ((processImageToLead dC1 none "u").remarks.getD "")
          (ocrFields dC1)) := by
  have hlow : (processImageToLead dC1 none "u").confidence < CONFIDENCE_THRESHOLD := by
    rw [processImageToLead_confidence, confidence_dC1]
    norm_num [CONFIDENCE_THRESHOLD]
  exact ⟨⟨hlow, by simp [dC1]⟩,
    c1_zero_data_loss_amended.2 dC1 none "u" hlow (Or.inl (by simp [dC1]))⟩

/-- A transcription result with only a short text. -/
def trHi : TranscriptionResult := ⟨some "hi", none, none, none, none⟩

/-- Candidate fields with only a `name`. -/
def lBob : LeadFields := ⟨some "Bob", none, none, none, none⟩

theorem rawScore_lBob_trHi : rawScore lBob "hi" mdDefaults = 0 := by
  unfold rawScore
  have h1 : fieldScore lBob = 1 := by
    simp +decide only [fieldScore, fieldPoint, fieldPresent, jsTrim, lBob]
    norm_num
  have h2 : emailBonus lBob.email = 0 := rfl
  have h3 : shortTextPenalty "hi" = -1 := by
    unfold shortTextPenalty
    rw [if_pos (by decide)]
  have h4 : durationSegmentAdjust mdDefaults = 0 := by
    simp only [durationSegmentAdjust, mdDefaults]
    norm_num
  have h5 : paceBonus mdDefaults = 0 := by
    simp only [paceBonus, mdDefaults]
    norm_num
  rw [h1, h2, h3, h4, h5]
  norm_num

theorem audio_trHi_confidence_low :
    (processAudioToLead trHi lBob "u" "v").confidence < CONFIDENCE_THRESHOLD := by
  have heq : (processAudioToLead trHi lBob "u" "v").confidence =
      calculateConfidence lBob "hi" mdDefaults := by
    rw [processAudioToLead_confidence]
    simp only [trHi]
    rw [show jsOrStr (some "hi") "" = "hi" from by simp [jsOrStr]]
    simp only [jsOrStr, jsOrQ, jsOrList, mdDefaults]
  rw [heq]
  unfold calculateConfidence
  rw [rawScore_lBob_trHi]
  norm_num [jsMax, jsMin, CONFIDENCE_THRESHOLD]

/-- C6 counterexample: on a low-confidence voice input the remarks are NOT
the join of only the transcript line and the field lines: a
`Language: unknown` line (the defaulted language, always truthy) is
inserted after the transcript line. -/
theorem c6_counterexample :
    (processAudioToLead trHi lBob "u" "v").confidence < CONFIDENCE_THRESHOLD ∧
      (processAudioToLead trHi lBob "u" "v").remarks =
        some "Transcript: hi | Language: unknown | Name (low confidence): Bob" ∧
      "Transcript: hi | Language: unknown | Name (low confidence): Bob" ≠
        "Transcript: hi | Name (low confidence): Bob" := by
  refine ⟨audio_trHi_confidence_low, ?_, by decide⟩
  rw [processAudioToLead_remarks, if_pos audio_trHi_confidence_low]
  simp only [trHi, lBob, jsOrStr, jsOrQ, audioPartialData, fieldLine]
  decide

/-- C6 (amended): under the threshold the image remarks are exactly the
join, with `" | "`, of the OCR text line (when non-empty) followed by one
labeled line per truthy field in the fixed order name, email, phone,
company, interest — as claimed.  The voice remarks additionally interleave
a `Language:` line (always, since the language defaults to `"unknown"`)
and, when the defaulted duration is non-zero, a `Duration:` line between
the transcript line and the field lines. -/
theorem c6_remarks_format_amended :
    (∀ (d : OCRData) (b : Option Int) (u : String),
      calculateOCRConfidence d < CONFIDENCE_THRESHOLD →
      (processImageToLead d b u).remarks = some (imageRemarksSpec d)) ∧
    (∀ (tr : TranscriptionResult) (l : LeadFields) (u v : String),
      (processAudioToLead tr l u v).confidence < CONFIDENCE_THRESHOLD →
      (processAudioToLead tr l u v).remarks = some (voiceRemarksSpec tr l)) := by
  constructor
  · intro d b u h
    rw [processImageToLead_remarks, if_pos h]
    congr 1
    unfold imageRemarksSpec imagePartialData
    rw [labeledLines_eq]
    simp [List.append_assoc, ocrFields]
  · intro tr l u v h
    rw [processAudioToLead_remarks, if_pos h]
    congr 1
    unfold voiceRemarksSpec audioPartialData
    rw [labeledLines_eq, if_neg (jsOrStr_unknown_ne tr.language)]
    simp [List.append_assoc]

/-- C6 witness: the amended statement at concrete low-confidence image and
voice inputs. -/
theorem c6_remarks_format_amended_witness :
    (calculateOCRConfidence scenarioCData < CONFIDENCE_THRESHOLD ∧
      (processImageToLead scenarioCData none "u").remarks =
        some (imageRemarksSpec scenarioCData)) ∧
    ((processAudioToLead trHi lBob "u" "v").confidence < CONFIDENCE_THRESHOLD ∧
      (processAudioToLead trHi lBob "u" "v").remarks =
        some (voiceRemarksSpec trHi lBob)) :=
  ⟨⟨confidence_scenario_c_low,
      c6_remarks_format_amended.1 scenarioCData none "u" confidence_scenario_c_low⟩,
    ⟨audio_trHi_confidence_low,
      c6_remarks_format_amended.2 trHi lBob "u" "v" audio_trHi_confidence_low⟩⟩

theorem dynFieldPoint_eq {v : JSVal} (h : stringShaped v) :
    dynFieldPoint v = Except.ok (fieldPoint v.toOptStr) := by
  cases v with
  | null => rfl
  | undef => rfl
  | str s =>
      by_cases hs : s = ""
      · subst hs
        rfl
      · simp only [dynFieldPoint, JSVal.truthy, fieldPoint, fieldPresent, JSVal.toOptStr]
        rw [if_pos (by simp [hs])]
        congr 1
        by_cases hl : 0 < (jsTrim s).length
        · rw [if_pos hl, if_pos (by simp [hs, hl])]
        · rw [if_neg hl, if_neg (by simp [hs, hl])]
  | num q =>
      by_cases hq : q = 0
      · subst hq
        rfl
      · obtain ⟨s, hs⟩ := h (by simp [JSVal.truthy, hq])
        exact absurd hs (by simp)
  | boolean b =>
      cases b with
      | false => rfl
      | true =>
          obtain ⟨s, hs⟩ := h rfl
          exact absurd hs (by simp)

theorem dynEmailBonus_eq (v : JSVal) : dynEmailBonus v = emailBonus v.toOptStr := by
  cases v <;> rfl

/-- C5 counterexample: a candidate record binding `name` to the non-string
truthy value `true` makes the scorer's `leadData[field].trim()` raise a
`TypeError` — the scorer is not total on malformed field shapes. -/
theorem c5_counterexample :
    calculateConfidenceDyn ⟨JSVal.boolean true, JSVal.null, JSVal.null, JSVal.null,
      JSVal.null⟩ "" mdNone = Except.error "TypeError: trim is not a function" := rfl

/-- C5 (amended): the scorer is total and treats missing or falsy values
(of any type) as absent whenever every truthy field value is a string — in
that case it returns exactly the well-typed score; a truthy non-string
field value, however, raises a `TypeError` (see the counterexample). -/
theorem c5_malformed_totality_amended :
    ∀ (f : DynFields) (t : String) (md : Metadata),
      stringShaped f.name → stringShaped f.email → stringShaped f.phone →
      stringShaped f.company → stringShaped f.interest →
      calculateConfidenceDyn f t md =
        Except.ok (calculateConfidence f.toLeadFields t md) := by
  intro f t md h1 h2 h3 h4 h5
  unfold calculateConfidenceDyn
  rw [dynFieldPoint_eq h1, dynFieldPoint_eq h2, dynFieldPoint_eq h3, dynFieldPoint_eq h4,
    dynFieldPoint_eq h5, dynEmailBonus_eq]
  simp only [bind, Except.bind, pure, Except.pure]
  unfold calculateConfidence rawScore fieldScore DynFields.toLeadFields
  rfl

/-- Dynamic fields that are all falsy or strings. -/
def dynGood : DynFields :=
  ⟨JSVal.str "John", JSVal.null, JSVal.undef, JSVal.str "", JSVal.boolean false⟩

/-- C5 witness: the amended statement at a concrete string-shaped record. -/
theorem c5_malformed_totality_amended_witness :
    stringShaped dynGood.name ∧ stringShaped dynGood.email ∧
      stringShaped dynGood.phone ∧ stringShaped dynGood.company ∧
      stringShaped dynGood.interest ∧
      calculateConfidenceDyn dynGood "" mdNone =
        Except.ok (calculateConfidence dynGood.toLeadFields "" mdNone) := by
  have h1 : stringShaped dynGood.name := fun _ => ⟨"John", rfl⟩
  have h2 : stringShaped dynGood.email := fun h => Bool.noConfusion h
  have h3 : stringShaped dynGood.phone := fun h => Bool.noConfusion h
  have h4 : stringShaped dynGood.company := fun _ => ⟨"", rfl⟩
  have h5 : stringShaped dynGood.interest := fun h => Bool.noConfusion h
  exact ⟨h1, h2, h3, h4, h5,
    c5_malformed_totality_amended dynGood "" mdNone h1 h2 h3 h4 h5⟩

end VoiceLead
